import Mathlib

/-!
Shallow embedding of the nyxstone assembler/disassembler adapter
(src/src/nyxstone.cpp, src/src/ObjectWriterWrapper.cpp,
src/examples/nyxstone-cli.cpp).

Machine integers: `u64` values are modelled as `Nat` with explicit
reduction modulo `2 ^ 64` where the C++ arithmetic can wrap; byte values
are `Nat` (each < 256 by construction of the callers).

The LLVM MC layer (target parsers, encoders, disassemblers, layout) is
the external "Backend" of the design: it is modelled as an opaque
function parameter wherever nyxstone code calls into it, and all logic
that lives in the nyxstone sources themselves (prepend/remove of the
Thumb alignment sentinel, label-offset injection, the byte-length
consistency check, the disassembly loop, fixup validation, relocation
resolution, relocation recording, the CLI exit-code mapping) is
translated directly from the C++.
-/

namespace nyxstone

/-- Modulus of the 64-bit machine integers used throughout the source. -/
def U64MOD : Nat := 2 ^ 64

/-- Wrapping u64 subtraction: `a - b` on `uint64_t` values. -/
def u64sub (a b : Nat) : Nat := (a + (U64MOD - b % U64MOD)) % U64MOD

/-- Lower-case hexadecimal rendering of a number, as produced by
`std::hex` on an `std::ostream` in the source. -/
def hexStr (n : Nat) : String := String.mk (Nat.toDigits 16 n)

/-- Mirror of `Nyxstone::LabelDefinition` (include/nyxstone.h). -/
structure LabelDefinition where
  name : String
  address : Nat
deriving DecidableEq, Repr

/-- Mirror of `Nyxstone::Instruction` (include/nyxstone.h). -/
structure Instruction where
  address : Nat
  assembly : String
  bytes : List Nat
deriving DecidableEq, Repr

/-- The LLVM architectures distinguished by the nyxstone sources
(`llvm::Triple::ArchType`); everything else is `other`. -/
inductive ArchType where
  | arm
  | aarch64
  | x86
  | x86_64
  | other
deriving DecidableEq, Repr

/-- The LLVM sub-architectures distinguished by `is_ArmT16_or_ArmT32`
(`llvm::Triple::SubArchType`); everything else is `NoSubArch`. -/
inductive SubArchType where
  | ARMSubArch_v6m
  | ARMSubArch_v6t2
  | ARMSubArch_v7m
  | ARMSubArch_v7em
  | ARMSubArch_v8m_baseline
  | ARMSubArch_v8m_mainline
  | ARMSubArch_v8_1m_mainline
  | NoSubArch
deriving DecidableEq, Repr

/-- Mirror of the parts of `llvm::Triple` that the nyxstone sources
inspect.  `isELF` models `triple.isOSBinFormatELF()` and `name` models
`triple.getTriple()` (both derived by LLVM from the triple string). -/
structure Triple where
  name : String
  arch : ArchType
  subArch : SubArchType
  isELF : Bool
deriving DecidableEq, Repr

/-- Mirror of `llvm::Triple::isAArch64` as used by the sources. -/
def Triple.isAArch64 (t : Triple) : Bool := t.arch == ArchType.aarch64

/-- Mirror of `is_ArmT16_or_ArmT32` (nyxstone.cpp:485-494): detects all
ARM Thumb sub-architectures. -/
def is_ArmT16_or_ArmT32 (triple : Triple) : Bool :=
  triple.subArch == SubArchType.ARMSubArch_v6m
    || triple.subArch == SubArchType.ARMSubArch_v6t2
    || triple.subArch == SubArchType.ARMSubArch_v7m
    || triple.subArch == SubArchType.ARMSubArch_v7em
    || triple.subArch == SubArchType.ARMSubArch_v8m_baseline
    || triple.subArch == SubArchType.ARMSubArch_v8m_mainline
    || triple.subArch == SubArchType.ARMSubArch_v8_1m_mainline

/-- Mirror of `PREPENDED_ASSEMBLY` (nyxstone.cpp:176). -/
def PREPENDED_ASSEMBLY : String := "bkpt #0x42\n"

/-- Mirror of `PREPENDED_BYTES` (nyxstone.cpp:177): the encoding of
`bkpt #0x42` on ARM Thumb. -/
def PREPENDED_BYTES : List Nat := [0x42, 0xbe]

/-- Mirror of `prepend_bkpt` (nyxstone.cpp:179-186). -/
def prepend_bkpt (assembly : String) (needs_prepend : Bool) : String :=
  if needs_prepend then PREPENDED_ASSEMBLY ++ assembly else assembly

/-- Error message of `remove_bkpt` when the first recorded instruction is
not the sentinel (nyxstone.cpp:199). -/
def bkpt_insn_error_msg : String := "Did not find prepended bkpt at first instruction."

/-- Error message of `remove_bkpt` when the first two output bytes are not
the sentinel encoding (nyxstone.cpp:205-209).  The source streams
`bytes[0]` and `bytes[1]` unconditionally; for byte buffers shorter than
two this is modelled with a default of 0. -/
def bkpt_bytes_error_msg (bytes : List Nat) : String :=
  "Did not find prepended bkpt at first two bytes. Found bytes 0x"
    ++ hexStr (bytes.getD 0 0) ++ " 0x" ++ hexStr (bytes.getD 1 0)

/-- Mirror of `remove_bkpt` (nyxstone.cpp:188-215).  The
`instructions` pointer of the source is modelled as an `Option`;
`none` is the null pointer of the byte-only variant.  The source reads
`instructions->front()` and checks `!instructions->empty()` in one
conjunction; the empty case takes the error branch here (the conjunction
is false whenever its second conjunct can be evaluated at all). -/
def remove_bkpt (bytes : List Nat) (instructions : Option (List Instruction)) (has_prepend : Bool) :
    Except String (List Nat × Option (List Instruction)) :=
  if has_prepend then
    let step2 := fun (ins : Option (List Instruction)) =>
      if bytes.length < 2 || bytes.take 2 != PREPENDED_BYTES then
        Except.error (bkpt_bytes_error_msg bytes)
      else
        Except.ok (bytes.drop 2, ins)
    match instructions with
    | none => step2 none
    | some [] => Except.error bkpt_insn_error_msg
    | some (first :: rest) =>
      if first.bytes == PREPENDED_BYTES then
        step2 (some rest)
      else
        Except.error bkpt_insn_error_msg
  else
    Except.ok (bytes, instructions)

/-- The condition under which the Thumb alignment sentinel is prepended
(nyxstone.cpp:247). -/
def needs_prepend_bkpt (triple : Triple) (address : Nat) : Bool :=
  is_ArmT16_or_ArmT32 triple && address % 4 == 2

/-- Error wrapper for diagnostics of the assembly run
(nyxstone.cpp:352-360): the parser result / accumulated diagnostic text
`e` becomes the single error string of the call. -/
def assembly_error_msg (e : String) : String :=
  if e.isEmpty then "Error during assembly" else "Error during assembly: " ++ e

/-- Error message of the ELF binary-format check (nyxstone.cpp:307-311). -/
def elf_error_msg (triple : Triple) : String :=
  "ELF does not support target triple \x27" ++ triple.name ++ "\x27."

/-- Address assignment after assembly (nyxstone.cpp:369-376): walk the
instruction list accumulating byte lengths from the start address
(`uint64_t` arithmetic). -/
def assign_addresses (address : Nat) : List Instruction → List Instruction
  | [] => []
  | insn :: rest =>
    { insn with address := address % U64MOD }
      :: assign_addresses ((address + insn.bytes.length) % U64MOD) rest

/-- The external Backend of one assemble call: the LLVM source manager,
context, code emitter, streamer and parser observed from
`Nyxstone::assemble_impl`.  Input: the (possibly sentinel-prepended)
assembly text and the injected `(name, offset)` symbol table
(nyxstone.cpp:343-349); output: the final relocated `.text` bytes
together with the instruction records produced by the streamer/writer
wrappers, or the accumulated diagnostic text on failure. -/
def AsmBackend : Type := String → List (String × Nat) → Except String (List Nat × List Instruction)

/-- Offset stored for one injected user-defined label
(nyxstone.cpp:344-347): `label.address - address + compensate_prepended_bkpt`
in `uint64_t` arithmetic, where the compensation is the sentinel length
when the sentinel was prepended and 0 otherwise. -/
def injected_label_offset (triple : Triple) (address : Nat) (l : LabelDefinition) : Nat :=
  (u64sub l.address address
    + if needs_prepend_bkpt triple address then PREPENDED_BYTES.length else 0) % U64MOD

/-- The symbol table injected into the assembly context
(nyxstone.cpp:343-349). -/
def injected_labels (triple : Triple) (address : Nat) (labels : List LabelDefinition) :
    List (String × Nat) :=
  labels.map fun l => (l.name, injected_label_offset triple address l)

/-- Mirror of `Nyxstone::assemble_impl` (nyxstone.cpp:218-379),
parameterised over the Backend.  `want_insns` distinguishes the
instruction-details variant (`instructions != nullptr`) from the
byte-only variant.  LLVM factory-object creation failures
(nyxstone.cpp:273-328) are part of the Backend parameter; the binary
format check (nyxstone.cpp:307-311) only inspects the triple and so is
kept explicit (its position relative to the effect-free sentinel
prepending is irrelevant to the observable result). -/
def assemble_impl (triple : Triple) (backend : AsmBackend) (assembly : String) (address : Nat)
    (labels : List LabelDefinition) (want_insns : Bool) :
    Except String (List Nat × List Instruction) :=
  if assembly.isEmpty then
    Except.ok ([], [])
  else if !triple.isELF then
    Except.error (elf_error_msg triple)
  else
    match backend (prepend_bkpt assembly (needs_prepend_bkpt triple address))
        (injected_labels triple address labels) with
    | Except.error e => Except.error (assembly_error_msg e)
    | Except.ok (output_bytes, streamed_insns) =>
      match remove_bkpt output_bytes (if want_insns then some streamed_insns else none)
          (needs_prepend_bkpt triple address) with
      | Except.error e => Except.error e
      | Except.ok (final_bytes, final_insns) =>
        Except.ok (final_bytes, assign_addresses address (final_insns.getD []))

/-- Mirror of `Nyxstone::assemble` (nyxstone.cpp:127-132). -/
def assemble (triple : Triple) (backend : AsmBackend) (assembly : String) (address : Nat)
    (labels : List LabelDefinition) : Except String (List Nat) :=
  (assemble_impl triple backend assembly address labels false).map Prod.fst

/-- Accumulated byte length of recorded instructions
(`std::accumulate`, nyxstone.cpp:144-145). -/
def insn_byte_length (instructions : List Instruction) : Nat :=
  instructions.foldl (fun acc insn => acc + insn.bytes.length) 0

/-- The internal-error message of the byte-length consistency check
(nyxstone.cpp:147-149). -/
def internal_error_msg (insn_len output_len : Nat) : String :=
  "Internal error (= insn_byte_length \x27" ++ toString insn_len
    ++ "\x27 != output_bytes.size " ++ toString output_len ++ ")"

/-- Mirror of `Nyxstone::assemble_to_instructions` (nyxstone.cpp:134-155):
runs the pipeline with instruction details and rejects the result with an
internal error when the accumulated per-instruction byte length differs
from the emitted byte length. -/
def assemble_to_instructions (triple : Triple) (backend : AsmBackend) (assembly : String)
    (address : Nat) (labels : List LabelDefinition) : Except String (List Instruction) :=
  match assemble_impl triple backend assembly address labels true with
  | Except.error e => Except.error e
  | Except.ok (output_bytes, instructions) =>
    if insn_byte_length instructions != output_bytes.length then
      Except.error (internal_error_msg (insn_byte_length instructions) output_bytes.length)
    else
      Except.ok instructions

/-- Mirror of `llvm::MCSymbol` as inspected by the wrapper code: whether
the symbol is defined, its offset, and the layout offset of its fragment
(`Layout.getFragmentOffset(symbol.getFragment())`, a layout result that
the validators read). -/
structure MCSymbol where
  isDefined : Bool
  offset : Nat
  fragmentOffset : Nat
deriving DecidableEq, Repr

/-- The fixup kinds distinguished by the nyxstone sources
(ARMFixupKinds.h / AArch64FixupKinds.h); every other kind is
`otherKind`. -/
inductive FixupKind where
  | fixup_thumb_adr_pcrel_10
  | fixup_arm_thumb_cp
  | fixup_t2_adr_pcrel_12
  | fixup_arm_thumb_br
  | fixup_arm_thumb_bl
  | fixup_arm_thumb_bcc
  | fixup_t2_uncondbranch
  | fixup_t2_condbranch
  | fixup_t2_pcrel_10
  | fixup_aarch64_pcrel_adr_imm21
  | fixup_aarch64_pcrel_adrp_imm21
  | otherKind
deriving DecidableEq, Repr

/-- Mirror of the `llvm::MCExpr` shapes the wrapper code inspects: a
direct symbol reference (`MCExpr::SymbolRef`), a target-specific AArch64
expression (`MCExpr::Target`, i.e. `AArch64MCExpr`) wrapping a
sub-expression (`aarch64ExprNull` is one whose `getSubExpr()` is a null
pointer), or any other expression kind. -/
inductive MCExprModel where
  | symbolRef (sym : MCSymbol)
  | aarch64Expr (sub : MCExprModel)
  | aarch64ExprNull
  | otherExpr
deriving DecidableEq, Repr

/-- Mirror of `llvm::MCFixup` as inspected by the wrapper code:
`getTargetKind()`, `getValue()` (a null pointer is `none`) and
`getOffset()`. -/
structure MCFixup where
  kind : FixupKind
  value : Option MCExprModel
  offset : Nat
deriving DecidableEq, Repr

/-- Mirror of the parts of `llvm::MCValue` inspected by
`recordRelocation`: the A and B symbol references (`getSymA`/`getSymB`,
null pointers are `none`). -/
structure MCValue where
  symA : Option MCSymbol
  symB : Option MCSymbol
deriving DecidableEq, Repr

/-- Two's-complement reading of a `uint64_t` value as `int64_t`
(`static_cast<int64_t>`). -/
def toInt64 (x : Nat) : Int :=
  if x % U64MOD < 2 ^ 63 then ((x % U64MOD : Nat) : Int)
  else ((x % U64MOD : Nat) : Int) - (U64MOD : Int)

/-- Mirror of `PAGE_SIZE` (ObjectWriterWrapper.cpp:190). -/
def PAGE_SIZE : Nat := 0x1000

/-- Mirror of `ObjectWriterWrapper::resolve_relocation`
(ObjectWriterWrapper.cpp:165-208).  `is_pcrel` models
`getFixupKindInfo(fixup.getKind()).Flags & FKF_IsPCRel`, a property of
the fixup kind reported by the Backend.  `some v` models `return true`
with `fixed_value = v`; `none` models `return false`.  The page masking
`addr & ~(PAGE_SIZE - 1)` on `uint64_t` is `Nat.land addr (U64MOD -
PAGE_SIZE)`.  The llvm `cast`s of the source assert their operand shape;
a shape that would fail a cast is mapped to `none` (such shapes cannot
reach this code for this fixup kind). -/
def resolve_relocation (triple : Triple) (start_address : Nat) (fixup : MCFixup)
    (is_pcrel : Bool) : Option Nat :=
  if triple.isAArch64 then
    if is_pcrel && fixup.kind == FixupKind.fixup_aarch64_pcrel_adrp_imm21 then
      match fixup.value with
      | some (MCExprModel.aarch64Expr (MCExprModel.symbolRef symbol)) =>
        if !symbol.isDefined then
          none
        else
          some (u64sub
            (Nat.land ((start_address + symbol.offset) % U64MOD) (U64MOD - PAGE_SIZE))
            (Nat.land ((start_address + fixup.offset) % U64MOD) (U64MOD - PAGE_SIZE)))
      | _ => none
    else
      none
  else
    none

/-- Mirror of `ObjectWriterWrapper::recordRelocation`
(ObjectWriterWrapper.cpp:211-235).  `Except.error msg` models
`context.reportError(Fixup.getLoc(), msg)` followed by `return`: the
reported message is appended to the diagnostic text of the call, which
makes the assemble call fail (nyxstone.cpp:352-360,
ObjectWriterWrapper.cpp:240-242).  `Except.ok v` models the successful
in-place resolution with `FixedValue = v`. -/
def recordRelocation (triple : Triple) (start_address : Nat) (fixup : MCFixup)
    (is_pcrel : Bool) (target : MCValue) : Except String Nat :=
  if !((match target.symA with | some s => s.isDefined | none => true)
      && (match target.symB with | some s => s.isDefined | none => true)) then
    Except.error "Label undefined (reported by Nyxstone)"
  else
    match resolve_relocation triple start_address fixup is_pcrel with
    | none => Except.error "Could not resolve relocation/label (reported by Nyxstone)"
    | some v => Except.ok v

/-- Misaligned-target message of the Thumb validators
(ObjectWriterWrapper.cpp:56, 81). -/
def thumb_misaligned_lower_msg : String := "misaligned label address (reported by nyxstone)"

/-- Misaligned-target message of the Thumb LDC validator
(ObjectWriterWrapper.cpp:101). -/
def thumb_misaligned_upper_msg : String := "misaligned label address (reported by Nyxstone)"

/-- Out-of-range message of the Thumb validators
(ObjectWriterWrapper.cpp:68, 96). -/
def thumb_out_of_range_msg : String := "out of range pc-relative fixup value (reported by Nyxstone)"

/-- Out-of-range message of the AArch64 ADR validator
(ObjectWriterWrapper.cpp:124). -/
def aarch64_out_of_range_msg : String := "fixup value out of range (reported by Nyxstone)"

/-- The layout address of a fixup target symbol used by the validators:
`Layout.getFragmentOffset(symbol.getFragment()) + symbol.getOffset()`
(`uint64_t` arithmetic, ObjectWriterWrapper.cpp:52, 77, 88). -/
def symbol_layout_address (sym : MCSymbol) : Nat :=
  (sym.fragmentOffset + sym.offset) % U64MOD

/-- Mirror of `validate_arm_thumb` (ObjectWriterWrapper.cpp:40-104):
returns the list of messages passed to `context.reportError`, in source
order.  Any reported message is appended to the diagnostic text and makes
the assemble call fail. -/
def validate_arm_thumb (fixup : MCFixup) : List String :=
  match fixup.value with
  | some (MCExprModel.symbolRef symbol) =>
    (if fixup.kind = FixupKind.fixup_thumb_adr_pcrel_10
        ∨ fixup.kind = FixupKind.fixup_arm_thumb_cp then
      if Nat.land (symbol_layout_address symbol) 3 ≠ 0 then [thumb_misaligned_lower_msg] else []
    else [])
    ++ (if fixup.kind = FixupKind.fixup_t2_adr_pcrel_12 then
      if toInt64 symbol.offset - 4 ≤ -4096 ∨ 4096 ≤ toInt64 symbol.offset - 4 then
        [thumb_out_of_range_msg]
      else []
    else [])
    ++ (if fixup.kind = FixupKind.fixup_arm_thumb_br
        ∨ fixup.kind = FixupKind.fixup_arm_thumb_bl
        ∨ fixup.kind = FixupKind.fixup_arm_thumb_bcc
        ∨ fixup.kind = FixupKind.fixup_t2_uncondbranch
        ∨ fixup.kind = FixupKind.fixup_t2_condbranch then
      if Nat.land (symbol_layout_address symbol) 1 ≠ 0 then [thumb_misaligned_lower_msg] else []
    else [])
    ++ (if fixup.kind = FixupKind.fixup_t2_pcrel_10 then
      (if toInt64 symbol.offset - 4 < -1020 ∨ 1020 < toInt64 symbol.offset - 4 then
        [thumb_out_of_range_msg]
      else [])
        ++ (if Nat.land (symbol_layout_address symbol) 3 ≠ 0 then [thumb_misaligned_upper_msg]
          else [])
    else [])
  | _ => []

/-- Mirror of `validate_aarch64` (ObjectWriterWrapper.cpp:106-127). -/
def validate_aarch64 (triple : Triple) (fixup : MCFixup) : List String :=
  match fixup.value with
  | some (MCExprModel.aarch64Expr (MCExprModel.symbolRef symbol)) =>
    if triple.isAArch64 = true ∧ fixup.kind = FixupKind.fixup_aarch64_pcrel_adr_imm21 then
      if toInt64 symbol.offset < -0x100000 ∨ 0x100000 ≤ toInt64 symbol.offset then
        [aarch64_out_of_range_msg]
      else []
    else []
  | _ => []

/-- The fragment kinds distinguished by `validate_fixups`
(`llvm::MCFragment::FT_Data`, `FT_Relaxable`); every other kind is
`FT_other`. -/
inductive MCFragmentKind where
  | FT_Data
  | FT_Relaxable
  | FT_other
deriving DecidableEq, Repr

/-- Mirror of the parts of `llvm::MCFragment` that `validate_fixups`
inspects: its kind and its fixup list. -/
structure MCFragmentModel where
  kind : MCFragmentKind
  fixups : List MCFixup
deriving DecidableEq, Repr

/-- Mirror of `ObjectWriterWrapper::validate_fixups`
(ObjectWriterWrapper.cpp:129-158): every message reported for the fixups
of one fragment, in source order. -/
def validate_fixups (triple : Triple) (fragment : MCFragmentModel) : List String :=
  match fragment.kind with
  | MCFragmentKind.FT_other => []
  | _ =>
    fragment.fixups.flatMap fun fixup =>
      (if is_ArmT16_or_ArmT32 triple then validate_arm_thumb fixup else [])
        ++ (if triple.isAArch64 then validate_aarch64 triple fixup else [])

/-- The external Backend of one disassemble call:
`disassembler->getInstruction` plus `instruction_printer->printInst`
observed from `Nyxstone::disassemble_impl` on the remaining byte slice
`data.slice(pos)` and the address `address + pos`.  `some (text, size)`
models a successful decode of `size` bytes whose trimmed rendering is
`text`; `none` models `MCDisassembler::Fail` / `SoftFail`
(nyxstone.cpp:426-436). -/
def Decoder : Type := List Nat → Nat → Option (String × Nat)

/-- Error message of a failed decode (nyxstone.cpp:430-431): position in
decimal, address in hexadecimal.  The optional diagnostic suffix of the
source is absent because decode failures are reported through the return
status, not the diagnostic handler, in this model. -/
def disas_error_msg (pos addr : Nat) : String :=
  "Could not disassemble at position " ++ toString pos ++ " / address " ++ hexStr addr

/-- Marker for a state the `while (true)` loop of the source never leaves:
it can iterate at most once per remaining input byte unless a decode
reports size 0 while bytes remain, in which case the source loops
forever.  The model runs the loop on a fuel of one iteration per input
byte and maps exhaustion to this error, which is unreachable for decoders
that consume at least one byte per success. -/
def nonterminating_loop_msg : String := "unreachable: loop iteration bound exceeded"

/-- The instruction record of one loop iteration (nyxstone.cpp:454-461):
reported address `address + pos` and recorded bytes
`data[pos, pos + insn_size)`. -/
def decoded_insn (data : List Nat) (address pos : Nat) (text : String) (insn_size : Nat) :
    Instruction :=
  { address := (address + pos) % U64MOD,
    assembly := text,
    bytes := (data.drop pos).take insn_size }

/-- Mirror of the decode loop of `Nyxstone::disassemble_impl`
(nyxstone.cpp:421-474).  `pos` and `insn_count` are the loop variables
(`count` is the requested instruction count); the decoded instruction
list is returned instead of being appended to the output parameters, and
`Except.error` discards it exactly as the source returns
`tl::unexpected` without touching the outputs again. -/
def disassemble_loop (dec : Decoder) (data : List Nat) (address count : Nat) :
    Nat → Nat → Nat → Except String (List Instruction)
  | 0, _, _ => Except.error nonterminating_loop_msg
  | fuel + 1, pos, insn_count =>
    match dec (data.drop pos) ((address + pos) % U64MOD) with
    | none => Except.error (disas_error_msg pos ((address + pos) % U64MOD))
    | some (text, insn_size) =>
      if count ≠ 0 ∧ count ≤ insn_count + 1 then
        Except.ok [decoded_insn data address pos text insn_size]
      else if data.length ≤ pos + insn_size then
        Except.ok [decoded_insn data address pos text insn_size]
      else
        match disassemble_loop dec data address count fuel (pos + insn_size) (insn_count + 1) with
        | Except.error e => Except.error e
        | Except.ok rest => Except.ok (decoded_insn data address pos text insn_size :: rest)

/-- Mirror of `Nyxstone::disassemble_impl` (nyxstone.cpp:381-477),
restricted to the instruction-details output (the textual output renders
the same instruction list, see `disassemble`). -/
def disassemble_impl (dec : Decoder) (bytes : List Nat) (address count : Nat) :
    Except String (List Instruction) :=
  if bytes.isEmpty then
    Except.ok []
  else
    disassemble_loop dec bytes address count bytes.length 0 0

/-- Mirror of `Nyxstone::disassemble_to_instructions`
(nyxstone.cpp:166-173). -/
def disassemble_to_instructions (dec : Decoder) (bytes : List Nat) (address count : Nat) :
    Except String (List Instruction) :=
  disassemble_impl dec bytes address count

/-- Mirror of `Nyxstone::disassemble` (nyxstone.cpp:157-164): the textual
output accumulated by the same loop, one trimmed instruction per line
(nyxstone.cpp:451-453). -/
def disassemble (dec : Decoder) (bytes : List Nat) (address count : Nat) :
    Except String String :=
  (disassemble_impl dec bytes address count).map
    fun insns => String.join (insns.map fun insn => insn.assembly ++ "\n")

/-- Sequential-address predicate of the decode loop: each instruction is
reported at the running address, i.e. the call address plus the byte
lengths of all earlier instructions (`uint64_t` arithmetic). -/
def seq_from (address : Nat) : List Instruction → Bool
  | [] => true
  | insn :: rest =>
    insn.address == address % U64MOD && seq_from (address + insn.bytes.length) rest

/-- Concrete x86_64 triple for evaluating the model on closed inputs. -/
def x86Triple : Triple :=
  { name := "x86_64-linux-gnu", arch := ArchType.x86_64, subArch := SubArchType.NoSubArch,
    isELF := true }

/-- Concrete ARMv7-M (Thumb) triple for evaluating the model on closed
inputs. -/
def thumbTriple : Triple :=
  { name := "armv7m-none-eabi", arch := ArchType.arm, subArch := SubArchType.ARMSubArch_v7m,
    isELF := true }

/-- Concrete AArch64 triple for evaluating the model on closed inputs. -/
def aarch64Triple : Triple :=
  { name := "aarch64-linux-gnu", arch := ArchType.aarch64, subArch := SubArchType.NoSubArch,
    isELF := true }

/-- Concrete Backend behaviour: emits the encoding of `mov rax, rbx`
whatever the input is. -/
def movBackend : AsmBackend := fun _ _ =>
  Except.ok ([0x48, 0x89, 0xd8],
    [{ address := 0, assembly := "mov rax, rbx", bytes := [0x48, 0x89, 0xd8] }])

/-- Concrete defined symbol for evaluating the relocation model on closed
inputs. -/
def adrpSymbol : MCSymbol := { isDefined := true, offset := 0x2345, fragmentOffset := 0 }

/-- Concrete `adrp`-style page relocation fixup referencing
`adrpSymbol`. -/
def adrpFixup : MCFixup :=
  { kind := FixupKind.fixup_aarch64_pcrel_adrp_imm21,
    value := some (MCExprModel.aarch64Expr (MCExprModel.symbolRef adrpSymbol)),
    offset := 4 }

/-- Concrete undefined symbol for evaluating the relocation model on
closed inputs. -/
def undefSymbol : MCSymbol := { isDefined := false, offset := 0, fragmentOffset := 0 }

/-- Concrete fixup of a kind the Resolver does not implement. -/
def otherFixup : MCFixup := { kind := FixupKind.otherKind, value := none, offset := 0 }

/-- Concrete symbol at a misaligned (odd) layout address. -/
def oddSymbol : MCSymbol := { isDefined := true, offset := 0x21, fragmentOffset := 0 }

/-- Concrete Thumb branch fixup targeting `oddSymbol`. -/
def thumbBranchFixup : MCFixup :=
  { kind := FixupKind.fixup_arm_thumb_br,
    value := some (MCExprModel.symbolRef oddSymbol),
    offset := 0 }

/-- Mirror of the `Options` struct of the CLI (nyxstone-cli.cpp:51-63). -/
structure Options where
  triple : String
  cpu : String
  features : String
  address : Nat
  labels : List LabelDefinition
  disassemble : Bool
  show_help : Bool
  input : String
deriving Repr

/-- Exit code of the CLI `main` (nyxstone-cli.cpp:133-182), as a function
of the results of the steps `main` sequences: `Options::parse`
(nyxstone-cli.cpp:65-131, built on the external `argh` parser),
`NyxstoneBuilder::build`, `decode_instruction_bytes` applied to the input
(nyxstone-cli.cpp:184-205), and the requested nyxstone operation.  Every
failure path of `main` ends in `return 1` or `exit(1)`; `--help` prints
the usage text and returns 0; a successful operation prints its result
and `main` ends normally (exit code 0). -/
def cli_exit_code (options_result : Except String Options)
    (build_result : Except String Unit) (decoded_bytes : List Nat)
    (disas_result asm_result : Except String (List Instruction)) : Nat :=
  match options_result with
  | Except.error _ => 1
  | Except.ok options =>
    if options.show_help then 0
    else
      match build_result with
      | Except.error _ => 1
      | Except.ok _ =>
        if options.disassemble then
          if decoded_bytes.isEmpty then 1
          else
            match disas_result with
            | Except.error _ => 1
            | Except.ok _ => 0
        else
          match asm_result with
          | Except.error _ => 1
          | Except.ok _ => 0

/-- Concrete decoder: two bytes per instruction, failing when fewer than
two bytes remain. -/
def twoByteDecoder : Decoder := fun bs _ =>
  if 2 ≤ bs.length then some ("insn", 2) else none

/-- Concrete decoder that always fails. -/
def failDecoder : Decoder := fun _ _ => none

end nyxstone

namespace nyxstone

theorem remove_bkpt_drop_insns {bytes : List Nat} {ins : List Instruction} {p : Bool}
    {out : List Nat} {ins2 : Option (List Instruction)}
    (h : remove_bkpt bytes (some ins) p = Except.ok (out, ins2)) :
    remove_bkpt bytes none p = Except.ok (out, none) := by
  cases p with
  | false =>
    simp only [remove_bkpt, Bool.false_eq_true, if_false, Except.ok.injEq, Prod.mk.injEq] at h ⊢
    simp [h.1]
  | true =>
    simp only [remove_bkpt, if_true] at h ⊢
    cases ins with
    | nil => exact absurd h (by simp)
    | cons first rest =>
      by_cases hb : first.bytes == PREPENDED_BYTES
      · simp only [hb, if_true] at h
        split at h
        · exact absurd h (by simp)
        · rename_i hcond
          simp only [hcond, if_false]
          simp only [Except.ok.injEq, Prod.mk.injEq] at h
          exact by simp [h.1]
      · simp only [hb, if_false] at h
        exact absurd h (by simp)

theorem assemble_impl_bytes_agree {triple : Triple} {backend : AsmBackend} {assembly : String}
    {address : Nat} {labels : List LabelDefinition} {out : List Nat} {insns : List Instruction}
    (h : assemble_impl triple backend assembly address labels true = Except.ok (out, insns)) :
    assemble_impl triple backend assembly address labels false = Except.ok (out, []) := by
  by_cases hemp : assembly.isEmpty
  · simp only [assemble_impl, hemp, if_true] at h ⊢
    simp only [Except.ok.injEq, Prod.mk.injEq] at h
    simp [← h.1]
  · by_cases helf : triple.isELF
    · simp only [assemble_impl, hemp, helf, Bool.not_true, Bool.false_eq_true, if_false] at h ⊢
      cases hb : backend (prepend_bkpt assembly (needs_prepend_bkpt triple address))
          (injected_labels triple address labels) with
      | error e =>
        rw [hb] at h
        exact absurd h (by simp)
      | ok p =>
        obtain ⟨output_bytes, streamed⟩ := p
        rw [hb] at h
        dsimp only at h ⊢
        simp only [if_true] at h
        cases hr : remove_bkpt output_bytes (some streamed) (needs_prepend_bkpt triple address) with
        | error e =>
          rw [hr] at h
          exact absurd h (by simp)
        | ok q =>
          obtain ⟨final_bytes, final_insns⟩ := q
          rw [hr] at h
          simp only [Except.ok.injEq, Prod.mk.injEq] at h
          rw [remove_bkpt_drop_insns hr]
          simp [h.1, assign_addresses]
    · simp only [assemble_impl, hemp, helf, if_false] at h
      exact absurd h (by simp)

theorem internal_error_ne_assembly_error (a b : Nat) (e : String) :
    internal_error_msg a b ≠ assembly_error_msg e := by
  intro h
  have h1 : (internal_error_msg a b).data.head? = some (Char.ofNat 73) := rfl
  have h2 : (assembly_error_msg e).data.head? = some (Char.ofNat 69) := by
    unfold assembly_error_msg
    by_cases he : e.isEmpty
    · simp only [he, if_true]
      rfl
    · simp only [he, if_false]
      rfl
  rw [h] at h1
  rw [h2] at h1
  exact absurd (Option.some.inj h1) (by decide)

/-- Claim C1: for every assemble call with instruction details requested,
the sum of the byte lengths of all returned Instructions equals the
length of the raw byte result that the byte-only assemble variant
produces for the same (assembly, address, labels) input; if the
accumulated per-instruction byte length differs from the total emitted
byte length, the call returns an internal error (distinct from a user
input error) rather than a result (nyxstone.cpp:134-155). -/
theorem C1_byte_length_invariant (triple : Triple) (backend : AsmBackend) (assembly : String)
    (address : Nat) (labels : List LabelDefinition) :
    (∀ insns, assemble_to_instructions triple backend assembly address labels = Except.ok insns →
      ∃ bytes, assemble triple backend assembly address labels = Except.ok bytes
        ∧ insn_byte_length insns = bytes.length)
    ∧ (∀ output_bytes insns,
        assemble_impl triple backend assembly address labels true
            = Except.ok (output_bytes, insns) →
        insn_byte_length insns ≠ output_bytes.length →
        assemble_to_instructions triple backend assembly address labels
            = Except.error (internal_error_msg (insn_byte_length insns) output_bytes.length)
          ∧ ∀ e, internal_error_msg (insn_byte_length insns) output_bytes.length
              ≠ assembly_error_msg e) := by
  constructor
  · intro insns h
    unfold assemble_to_instructions at h
    cases himpl : assemble_impl triple backend assembly address labels true with
    | error e =>
      rw [himpl] at h
      exact absurd h (by simp)
    | ok p =>
      obtain ⟨ob, ins⟩ := p
      rw [himpl] at h
      dsimp only at h
      split at h
      · exact absurd h (by simp)
      · rename_i hcond
        simp only [bne_iff_ne, ne_eq, not_not] at hcond
        simp only [Except.ok.injEq] at h
        subst h
        refine ⟨ob, ?_, hcond⟩
        unfold assemble
        rw [assemble_impl_bytes_agree himpl]
        rfl
  · intro ob ins himpl hne
    constructor
    · unfold assemble_to_instructions
      rw [himpl]
      dsimp only
      rw [if_pos (by simpa using hne)]
    · intro e
      exact internal_error_ne_assembly_error _ _ e

/-- Witness for C1 at a concrete input. -/
theorem C1_byte_length_invariant_witness :
    assemble_to_instructions x86Triple movBackend "mov rax, rbx" 0x1000 []
        = Except.ok [{ address := 0x1000, assembly := "mov rax, rbx", bytes := [0x48, 0x89, 0xd8] }]
      ∧ ∃ bytes, assemble x86Triple movBackend "mov rax, rbx" 0x1000 [] = Except.ok bytes
          ∧ insn_byte_length
              [{ address := 0x1000, assembly := "mov rax, rbx", bytes := [0x48, 0x89, 0xd8] }]
              = bytes.length :=
  ⟨rfl, (C1_byte_length_invariant x86Triple movBackend "mov rax, rbx" 0x1000 []).1 _ rfl⟩

/-- Claim C2: for every assemble call on an ARM Thumb target whose start
address satisfies address mod 4 == 2, the pipeline prepends the sentinel
instruction bkpt #0x42 (byte encoding 0x42 0xbe) to the assembly text,
shifts every injected label offset by the sentinel byte length (2), and
after assembly verifies that the expected sentinel bytes appear as the
first instruction / first two bytes of the result before removing them
from both the byte buffer and the instruction list; if the expected
sentinel bytes are not found, the call returns a hard error instead of
silently returning bytes (nyxstone.cpp:176-215, 247-248, 344-349, 362). -/
theorem C2_thumb_sentinel_compensation (triple : Triple) (backend : AsmBackend)
    (assembly : String) (address : Nat) (labels : List LabelDefinition) (want_insns : Bool)
    (ht : is_ArmT16_or_ArmT32 triple = true) (ha : address % 4 = 2)
    (hasm : assembly.isEmpty = false) (helf : triple.isELF = true) :
    needs_prepend_bkpt triple address = true
    ∧ PREPENDED_ASSEMBLY = "bkpt #0x42\n"
    ∧ PREPENDED_BYTES = [0x42, 0xbe]
    ∧ (∀ l, injected_label_offset triple address l = (u64sub l.address address + 2) % U64MOD)
    ∧ assemble_impl triple backend assembly address labels want_insns
        = (match backend (PREPENDED_ASSEMBLY ++ assembly)
              (injected_labels triple address labels) with
          | Except.error e => Except.error (assembly_error_msg e)
          | Except.ok (output_bytes, streamed_insns) =>
            match remove_bkpt output_bytes
                (if want_insns then some streamed_insns else none) true with
            | Except.error e => Except.error e
            | Except.ok (final_bytes, final_insns) =>
              Except.ok (final_bytes, assign_addresses address (final_insns.getD [])))
    ∧ (∀ output_bytes : List Nat,
        remove_bkpt output_bytes (some []) true = Except.error bkpt_insn_error_msg)
    ∧ (∀ (output_bytes : List Nat) (first : Instruction) (rest : List Instruction),
        first.bytes ≠ PREPENDED_BYTES →
        remove_bkpt output_bytes (some (first :: rest)) true = Except.error bkpt_insn_error_msg)
    ∧ (∀ (output_bytes : List Nat) (first : Instruction) (rest : List Instruction),
        first.bytes = PREPENDED_BYTES →
        (output_bytes.length < 2 ∨ output_bytes.take 2 ≠ PREPENDED_BYTES) →
        remove_bkpt output_bytes (some (first :: rest)) true
            = Except.error (bkpt_bytes_error_msg output_bytes))
    ∧ (∀ (output_bytes : List Nat) (first : Instruction) (rest : List Instruction),
        first.bytes = PREPENDED_BYTES →
        2 ≤ output_bytes.length → output_bytes.take 2 = PREPENDED_BYTES →
        remove_bkpt output_bytes (some (first :: rest)) true
            = Except.ok (output_bytes.drop 2, some rest)) := by
  have hneeds : needs_prepend_bkpt triple address = true := by
    simp [needs_prepend_bkpt, ht, ha]
  refine ⟨hneeds, rfl, rfl, ?_, ?_, ?_, ?_, ?_, ?_⟩
  · intro l
    simp [injected_label_offset, hneeds, PREPENDED_BYTES]
  · simp only [assemble_impl, hasm, Bool.false_eq_true, if_false, helf, Bool.not_true, hneeds,
      prepend_bkpt, if_true]
  · intro output_bytes
    rfl
  · intro output_bytes first rest hfirst
    simp [remove_bkpt, hfirst]
  · intro output_bytes first rest hfirst hbad
    have hfb : (first.bytes == PREPENDED_BYTES) = true := by simp [hfirst]
    simp only [remove_bkpt, if_true, hfb]
    rw [if_pos]
    rcases hbad with hlen | htake
    · simp [hlen]
    · simp [htake]
  · intro output_bytes first rest hfirst hlen htake
    have hfb : (first.bytes == PREPENDED_BYTES) = true := by simp [hfirst]
    simp only [remove_bkpt, if_true, hfb]
    rw [if_neg]
    simp only [Bool.or_eq_true, decide_eq_true_eq, bne_iff_ne, ne_eq, not_or, not_lt, not_not]
    exact ⟨hlen, htake⟩

/-- Witness for C2 at a concrete input. -/
theorem C2_thumb_sentinel_compensation_witness :
    is_ArmT16_or_ArmT32 thumbTriple = true
      ∧ 2 % 4 = 2
      ∧ "mov r0, r1".isEmpty = false
      ∧ thumbTriple.isELF = true
      ∧ needs_prepend_bkpt thumbTriple 2 = true
      ∧ injected_label_offset thumbTriple 2 { name := "lab", address := 0x100 }
          = (u64sub 0x100 2 + 2) % U64MOD
      ∧ remove_bkpt [0x42, 0xbe, 0x70, 0x47]
          (some [{ address := 0, assembly := "bkpt #0x42", bytes := [0x42, 0xbe] },
                 { address := 0, assembly := "bx lr", bytes := [0x70, 0x47] }]) true
          = Except.ok ([0x42, 0xbe, 0x70, 0x47].drop 2,
              some [{ address := 0, assembly := "bx lr", bytes := [0x70, 0x47] }]) := by
  have h := C2_thumb_sentinel_compensation thumbTriple movBackend "mov r0, r1" 2 [] true
    (by decide) (by decide) (by decide) (by decide)
  exact ⟨by decide, by decide, by decide, by decide, h.1, h.2.2.2.1 _,
    h.2.2.2.2.2.2.2.2 _ _ _ rfl (by decide) (by decide)⟩

theorem land_page_mask (x : Nat) (hx : x < 2 ^ 64) :
    Nat.land x (2 ^ 64 - 2 ^ 12) = x - x % 2 ^ 12 := by
  have hmask : (2 : Nat) ^ 64 - 2 ^ 12 = 2 ^ 12 * (2 ^ 52 - 1) := by norm_num
  have hrhs : x - x % 2 ^ 12 = 2 ^ 12 * (x / 2 ^ 12) := by
    have := Nat.div_add_mod x (2 ^ 12)
    omega
  rw [hmask, hrhs]
  apply Nat.eq_of_testBit_eq
  intro i
  have hland : Nat.land x (2 ^ 12 * (2 ^ 52 - 1)) = x &&& (2 ^ 12 * (2 ^ 52 - 1)) := rfl
  rw [hland, Nat.testBit_and, Nat.testBit_mul_pow_two, Nat.testBit_mul_pow_two,
    Nat.testBit_two_pow_sub_one]
  have hdiv : x / 2 ^ 12 = x >>> 12 := (Nat.shiftRight_eq_div_pow x 12).symm
  rcases Nat.lt_or_ge i 12 with h12 | h12
  · have h1 : decide (i ≥ 12) = false := by
      simp only [decide_eq_false_iff_not]
      omega
    simp [h1]
  · have h1 : decide (i ≥ 12) = true := by simp [h12]
    have h2 : Nat.testBit (x / 2 ^ 12) (i - 12) = Nat.testBit x i := by
      rw [hdiv, Nat.testBit_shiftRight]
      congr 1
      omega
    rw [h1, h2]
    rcases Nat.lt_or_ge i 64 with h64 | h64
    · have h3 : decide (i - 12 < 52) = true := by
        simp only [decide_eq_true_eq]
        omega
      simp [h3]
    · have hxi : Nat.testBit x i = false :=
        Nat.testBit_lt_two_pow
          (lt_of_lt_of_le hx (Nat.pow_le_pow_right (by norm_num) h64))
      have h3 : decide (i - 12 < 52) = false := by
        simp only [decide_eq_false_iff_not]
        omega
      simp [h3, hxi]

/-- Claim C3: for every AArch64 adrp-style PC-relative page relocation
whose referenced symbol is defined, the Resolver computes the fixed value
as (page of the absolute label address) minus (page of the absolute
instruction address), where a page is obtained by zeroing the low 12 bits
(page size 0x1000) of the 64-bit address formed as start_address plus the
symbol/fixup offset, with all arithmetic modulo 2^64
(ObjectWriterWrapper.cpp:165-208). -/
theorem C3_adrp_page_delta (triple : Triple) (start_address : Nat) (fixup : MCFixup)
    (symbol : MCSymbol)
    (h64 : triple.isAArch64 = true)
    (hkind : fixup.kind = FixupKind.fixup_aarch64_pcrel_adrp_imm21)
    (hval : fixup.value = some (MCExprModel.aarch64Expr (MCExprModel.symbolRef symbol)))
    (hdef : symbol.isDefined = true) :
    resolve_relocation triple start_address fixup true
      = some (u64sub
          ((start_address + symbol.offset) % U64MOD
            - ((start_address + symbol.offset) % U64MOD) % PAGE_SIZE)
          ((start_address + fixup.offset) % U64MOD
            - ((start_address + fixup.offset) % U64MOD) % PAGE_SIZE)) := by
  have hx : (start_address + symbol.offset) % U64MOD < 2 ^ 64 :=
    Nat.mod_lt _ (by norm_num [U64MOD])
  have hy : (start_address + fixup.offset) % U64MOD < 2 ^ 64 :=
    Nat.mod_lt _ (by norm_num [U64MOD])
  have hpage : U64MOD - PAGE_SIZE = 2 ^ 64 - 2 ^ 12 := by norm_num [U64MOD, PAGE_SIZE]
  have hps : PAGE_SIZE = 2 ^ 12 := by norm_num [PAGE_SIZE]
  simp only [resolve_relocation, h64, if_true, hkind, hval, hdef, Bool.not_true,
    Bool.false_eq_true, if_false, beq_self_eq_true, Bool.and_true, Bool.and_self]
  rw [hpage, land_page_mask _ hx, land_page_mask _ hy, hps]

/-- Witness for C3 at a concrete input. -/
theorem C3_adrp_page_delta_witness :
    aarch64Triple.isAArch64 = true
      ∧ adrpFixup.kind = FixupKind.fixup_aarch64_pcrel_adrp_imm21
      ∧ adrpSymbol.isDefined = true
      ∧ resolve_relocation aarch64Triple 0x1000 adrpFixup true
          = some (u64sub
              ((0x1000 + adrpSymbol.offset) % U64MOD
                - ((0x1000 + adrpSymbol.offset) % U64MOD) % PAGE_SIZE)
              ((0x1000 + adrpFixup.offset) % U64MOD
                - ((0x1000 + adrpFixup.offset) % U64MOD) % PAGE_SIZE)) :=
  ⟨rfl, rfl, rfl, C3_adrp_page_delta aarch64Triple 0x1000 adrpFixup adrpSymbol rfl rfl rfl rfl⟩

/-- Claim C5: for every assemble call whose non-empty text uses a label
that is neither locally defined in the text nor present in the supplied
label set, the call fails with a label-undefined error; and for every
relocation whose referenced symbols are all defined but whose kind the
Resolver does not implement, the call fails with a
could-not-resolve-relocation error rather than returning wrong bytes
(ObjectWriterWrapper.cpp:211-235; the reported message joins the
diagnostic text that fails the call, nyxstone.cpp:352-360). -/
theorem C5_undefined_label_and_unresolved_relocation (triple : Triple) (start_address : Nat)
    (fixup : MCFixup) (is_pcrel : Bool) :
    (∀ target : MCValue,
      ((∃ s, target.symA = some s ∧ s.isDefined = false)
        ∨ (∃ s, target.symB = some s ∧ s.isDefined = false)) →
      recordRelocation triple start_address fixup is_pcrel target
        = Except.error "Label undefined (reported by Nyxstone)")
    ∧ (∀ target : MCValue,
      (∀ s, target.symA = some s → s.isDefined = true) →
      (∀ s, target.symB = some s → s.isDefined = true) →
      resolve_relocation triple start_address fixup is_pcrel = none →
      recordRelocation triple start_address fixup is_pcrel target
        = Except.error "Could not resolve relocation/label (reported by Nyxstone)") := by
  constructor
  · rintro ⟨sa, sb⟩ (⟨s, hs, hd⟩ | ⟨s, hs, hd⟩)
    · simp only at hs
      subst hs
      simp [recordRelocation, hd]
    · simp only at hs
      subst hs
      simp [recordRelocation, hd]
  · rintro ⟨sa, sb⟩ ha hb hres
    cases sa with
    | none =>
      cases sb with
      | none => simp [recordRelocation, hres]
      | some s =>
        have hd := hb s rfl
        simp [recordRelocation, hres, hd]
    | some s =>
      have hd := ha s rfl
      cases sb with
      | none => simp [recordRelocation, hres, hd]
      | some s2 =>
        have hd2 := hb s2 rfl
        simp [recordRelocation, hres, hd, hd2]

/-- Witness for C5 at concrete inputs. -/
theorem C5_undefined_label_and_unresolved_relocation_witness :
    recordRelocation aarch64Triple 0x1000 adrpFixup true
        { symA := some undefSymbol, symB := none }
        = Except.error "Label undefined (reported by Nyxstone)"
      ∧ recordRelocation x86Triple 0 otherFixup false
          { symA := some adrpSymbol, symB := none }
          = Except.error "Could not resolve relocation/label (reported by Nyxstone)" :=
  ⟨(C5_undefined_label_and_unresolved_relocation aarch64Triple 0x1000 adrpFixup true).1
      _ (Or.inl ⟨undefSymbol, rfl, rfl⟩),
    (C5_undefined_label_and_unresolved_relocation x86Triple 0 otherFixup false).2
      _ (fun s hs => by
          have h := Option.some.inj hs
          rw [← h]
          rfl)
      (fun s hs => by cases hs)
      rfl⟩

/-- Claim C7: for every fixup of a kind the Validator covers, after layout
the call fails with an explicit error rather than emitting silently-wrong
bytes when the fixup target is misaligned with respect to that fixup
kind's required alignment (2-byte alignment for ARM Thumb branch fixups,
4-byte alignment for the 2-byte ADR/LDR and LDC fixups) or when its
signed offset is outside the encodable range (ARM Thumb2 ADR beyond
±4096 after the PC+4 adjustment, AArch64 ADR outside
[-0x100000, 0x100000)) (ObjectWriterWrapper.cpp:40-158). -/
theorem C7_fixup_validation (fixup : MCFixup) (symbol : MCSymbol)
    (hval : fixup.value = some (MCExprModel.symbolRef symbol)) :
    ((fixup.kind = FixupKind.fixup_thumb_adr_pcrel_10
        ∨ fixup.kind = FixupKind.fixup_arm_thumb_cp) →
      symbol_layout_address symbol % 4 ≠ 0 →
      validate_arm_thumb fixup ≠ [])
    ∧ ((fixup.kind = FixupKind.fixup_arm_thumb_br
        ∨ fixup.kind = FixupKind.fixup_arm_thumb_bl
        ∨ fixup.kind = FixupKind.fixup_arm_thumb_bcc
        ∨ fixup.kind = FixupKind.fixup_t2_uncondbranch
        ∨ fixup.kind = FixupKind.fixup_t2_condbranch) →
      symbol_layout_address symbol % 2 ≠ 0 →
      validate_arm_thumb fixup ≠ [])
    ∧ (fixup.kind = FixupKind.fixup_t2_pcrel_10 →
      symbol_layout_address symbol % 4 ≠ 0 →
      validate_arm_thumb fixup ≠ [])
    ∧ (fixup.kind = FixupKind.fixup_t2_adr_pcrel_12 →
      (toInt64 symbol.offset - 4 ≤ -4096 ∨ 4096 ≤ toInt64 symbol.offset - 4) →
      validate_arm_thumb fixup ≠ [])
    ∧ (∀ (triple : Triple) (fixup2 : MCFixup) (symbol2 : MCSymbol),
      triple.isAArch64 = true →
      fixup2.kind = FixupKind.fixup_aarch64_pcrel_adr_imm21 →
      fixup2.value = some (MCExprModel.aarch64Expr (MCExprModel.symbolRef symbol2)) →
      (toInt64 symbol2.offset < -0x100000 ∨ 0x100000 ≤ toInt64 symbol2.offset) →
      validate_aarch64 triple fixup2 ≠ [])
    ∧ (∀ (triple : Triple) (fragment : MCFragmentModel) (fixup2 : MCFixup),
      (fragment.kind = MCFragmentKind.FT_Data ∨ fragment.kind = MCFragmentKind.FT_Relaxable) →
      fixup2 ∈ fragment.fixups →
      is_ArmT16_or_ArmT32 triple = true →
      validate_arm_thumb fixup2 ≠ [] →
      validate_fixups triple fragment ≠ []) := by
  have hl3 : ∀ y : Nat, Nat.land y 3 = y % 4 := by
    intro y
    have h := Nat.and_pow_two_sub_one_eq_mod y 2
    simpa using h
  have hl1 : ∀ y : Nat, Nat.land y 1 = y % 2 := by
    intro y
    exact Nat.and_one_is_mod y
  refine ⟨?_, ?_, ?_, ?_, ?_, ?_⟩
  · intro hk hmis
    rw [← hl3] at hmis
    rcases hk with hk | hk <;> simp [validate_arm_thumb, hval, hk, hmis]
  · intro hk hmis
    rw [← hl1] at hmis
    rcases hk with hk | hk | hk | hk | hk <;> simp [validate_arm_thumb, hval, hk, hmis]
  · intro hk hmis
    rw [← hl3] at hmis
    simp [validate_arm_thumb, hval, hk, hmis]
  · intro hk hrange
    rcases hrange with hr | hr <;> simp [validate_arm_thumb, hval, hk, hr]
  · intro triple fixup2 symbol2 h64 hk hv hrange
    rcases hrange with hr | hr <;> simp [validate_aarch64, hv, h64, hk, hr]
  · intro triple fragment fixup2 hfk hmem ht hne
    have hsub : validate_arm_thumb fixup2
        ++ (if triple.isAArch64 = true then validate_aarch64 triple fixup2 else []) ≠ [] := by
      intro hcontra
      exact hne (List.append_eq_nil.mp hcontra).1
    intro hcontra
    rcases hfk with hfk | hfk <;>
    · rw [validate_fixups, hfk] at hcontra
      dsimp only at hcontra
      rw [List.flatMap_eq_nil_iff] at hcontra
      have := hcontra fixup2 hmem
      rw [ht] at this
      simp only [if_true] at this
      exact hsub this

/-- Witness for C7 at a concrete input. -/
theorem C7_fixup_validation_witness :
    thumbBranchFixup.value = some (MCExprModel.symbolRef oddSymbol)
      ∧ symbol_layout_address oddSymbol % 2 ≠ 0
      ∧ validate_arm_thumb thumbBranchFixup ≠ [] :=
  ⟨rfl, by decide,
    (C7_fixup_validation thumbBranchFixup oddSymbol rfl).2.1 (Or.inl rfl) (by decide)⟩

theorem disassemble_loop_succ_eq (dec : Decoder) (data : List Nat) (address count fuel pos ic : Nat) :
    disassemble_loop dec data address count (fuel + 1) pos ic
      = match dec (data.drop pos) ((address + pos) % U64MOD) with
        | none => Except.error (disas_error_msg pos ((address + pos) % U64MOD))
        | some (text, insn_size) =>
          if count ≠ 0 ∧ count ≤ ic + 1 then
            Except.ok [decoded_insn data address pos text insn_size]
          else if data.length ≤ pos + insn_size then
            Except.ok [decoded_insn data address pos text insn_size]
          else
            match disassemble_loop dec data address count fuel (pos + insn_size) (ic + 1) with
            | Except.error e => Except.error e
            | Except.ok rest =>
              Except.ok (decoded_insn data address pos text insn_size :: rest) := rfl

theorem foldl_len_shift (a : Nat) (l : List Instruction) :
    l.foldl (fun acc insn => acc + insn.bytes.length) a
      = a + l.foldl (fun acc insn => acc + insn.bytes.length) 0 := by
  induction l generalizing a with
  | nil => simp
  | cons i rest ih =>
    simp only [List.foldl_cons]
    rw [ih (a + i.bytes.length), ih (0 + i.bytes.length)]
    omega

theorem insn_byte_length_cons (i : Instruction) (rest : List Instruction) :
    insn_byte_length (i :: rest) = i.bytes.length + insn_byte_length rest := by
  unfold insn_byte_length
  simp only [List.foldl_cons]
  rw [foldl_len_shift]
  simp

theorem insn_byte_length_flatten (l : List Instruction) :
    insn_byte_length l = ((l.map Instruction.bytes).flatten).length := by
  induction l with
  | nil => rfl
  | cons i rest ih => simp [insn_byte_length_cons, ih]

theorem disassemble_loop_ok_ne_nil {dec : Decoder} {data : List Nat}
    {address count fuel pos ic : Nat} {insns : List Instruction}
    (h : disassemble_loop dec data address count fuel pos ic = Except.ok insns) :
    insns ≠ [] := by
  cases fuel with
  | zero => exact absurd h (by simp [disassemble_loop])
  | succ fuel =>
    rw [disassemble_loop_succ_eq] at h
    cases hd : dec (data.drop pos) ((address + pos) % U64MOD) with
    | none =>
      try rw [hd] at h
      dsimp only at h
      exact absurd h (by simp)
    | some r =>
      obtain ⟨text, insn_size⟩ := r
      try rw [hd] at h
      dsimp only at h
      split at h
      · simp only [Except.ok.injEq] at h
        subst h
        simp
      · split at h
        · simp only [Except.ok.injEq] at h
          subst h
          simp
        · cases hrec : disassemble_loop dec data address count fuel (pos + insn_size) (ic + 1) with
          | error e =>
            try rw [hrec] at h
            dsimp only at h
            exact absurd h (by simp)
          | ok rest =>
            try rw [hrec] at h
            dsimp only at h
            simp only [Except.ok.injEq] at h
            subst h
            simp

theorem disassemble_loop_flatten (dec : Decoder)
    (hdec : ∀ bs a t n, dec bs a = some (t, n) → 0 < n ∧ n ≤ bs.length)
    (data : List Nat) (address : Nat) :
    ∀ fuel pos ic insns,
      disassemble_loop dec data address 0 fuel pos ic = Except.ok insns →
      (insns.map Instruction.bytes).flatten = data.drop pos := by
  intro fuel
  induction fuel with
  | zero =>
    intro pos ic insns h
    exact absurd h (by simp [disassemble_loop])
  | succ fuel ih =>
    intro pos ic insns h
    rw [disassemble_loop_succ_eq] at h
    cases hd : dec (data.drop pos) ((address + pos) % U64MOD) with
    | none =>
      try rw [hd] at h
      dsimp only at h
      exact absurd h (by simp)
    | some r =>
      obtain ⟨text, insn_size⟩ := r
      try rw [hd] at h
      dsimp only at h
      rw [if_neg (by simp)] at h
      have hsz := hdec _ _ _ _ hd
      by_cases hlen : data.length ≤ pos + insn_size
      · rw [if_pos hlen] at h
        simp only [Except.ok.injEq] at h
        subst h
        have hle : (data.drop pos).length ≤ insn_size := by
          simp only [List.length_drop]
          omega
        simp [decoded_insn, List.take_of_length_le hle]
      · rw [if_neg hlen] at h
        cases hrec : disassemble_loop dec data address 0 fuel (pos + insn_size) (ic + 1) with
        | error e =>
          try rw [hrec] at h
          dsimp only at h
          exact absurd h (by simp)
        | ok rest =>
          try rw [hrec] at h
          dsimp only at h
          simp only [Except.ok.injEq] at h
          subst h
          have hrest := ih (pos + insn_size) (ic + 1) rest hrec
          simp only [List.map_cons, List.flatten_cons]
          rw [hrest, decoded_insn]
          rw [← List.drop_drop]
          exact List.take_append_drop _ _

theorem disassemble_loop_seq (dec : Decoder)
    (hdec : ∀ bs a t n, dec bs a = some (t, n) → 0 < n ∧ n ≤ bs.length)
    (data : List Nat) (address count : Nat) :
    ∀ fuel pos ic insns,
      disassemble_loop dec data address count fuel pos ic = Except.ok insns →
      seq_from (address + pos) insns = true := by
  intro fuel
  induction fuel with
  | zero =>
    intro pos ic insns h
    exact absurd h (by simp [disassemble_loop])
  | succ fuel ih =>
    intro pos ic insns h
    rw [disassemble_loop_succ_eq] at h
    cases hd : dec (data.drop pos) ((address + pos) % U64MOD) with
    | none =>
      try rw [hd] at h
      dsimp only at h
      exact absurd h (by simp)
    | some r =>
      obtain ⟨text, insn_size⟩ := r
      try rw [hd] at h
      dsimp only at h
      have hsz := hdec _ _ _ _ hd
      split at h
      · simp only [Except.ok.injEq] at h
        subst h
        simp [seq_from, decoded_insn]
      · split at h
        · simp only [Except.ok.injEq] at h
          subst h
          simp [seq_from, decoded_insn]
        · cases hrec : disassemble_loop dec data address count fuel (pos + insn_size) (ic + 1) with
          | error e =>
            try rw [hrec] at h
            dsimp only at h
            exact absurd h (by simp)
          | ok rest =>
            try rw [hrec] at h
            dsimp only at h
            simp only [Except.ok.injEq] at h
            subst h
            have hrest := ih (pos + insn_size) (ic + 1) rest hrec
            have hblen : (decoded_insn data address pos text insn_size).bytes.length = insn_size := by
              simp [decoded_insn, List.length_take]
              omega
            simp only [seq_from, hblen, Bool.and_eq_true, beq_iff_eq]
            refine ⟨by simp [decoded_insn], ?_⟩
            rw [← Nat.add_assoc] at hrest
            exact hrest

theorem disassemble_loop_length_le (dec : Decoder) (data : List Nat) (address : Nat)
    (count : Nat) (hc : count ≠ 0) :
    ∀ fuel pos ic insns,
      ic < count →
      disassemble_loop dec data address count fuel pos ic = Except.ok insns →
      insns.length ≤ count - ic := by
  intro fuel
  induction fuel with
  | zero =>
    intro pos ic insns _ h
    exact absurd h (by simp [disassemble_loop])
  | succ fuel ih =>
    intro pos ic insns hic h
    rw [disassemble_loop_succ_eq] at h
    cases hd : dec (data.drop pos) ((address + pos) % U64MOD) with
    | none =>
      try rw [hd] at h
      dsimp only at h
      exact absurd h (by simp)
    | some r =>
      obtain ⟨text, insn_size⟩ := r
      try rw [hd] at h
      dsimp only at h
      split at h
      · simp only [Except.ok.injEq] at h
        subst h
        simp only [List.length_cons, List.length_nil]
        omega
      · rename_i hstop
        split at h
        · simp only [Except.ok.injEq] at h
          subst h
          simp only [List.length_cons, List.length_nil]
          omega
        · cases hrec : disassemble_loop dec data address count fuel (pos + insn_size) (ic + 1) with
          | error e =>
            try rw [hrec] at h
            dsimp only at h
            exact absurd h (by simp)
          | ok rest =>
            try rw [hrec] at h
            dsimp only at h
            simp only [Except.ok.injEq] at h
            subst h
            have hic2 : ic + 1 < count := by
              rcases Decidable.not_and_iff_or_not.mp hstop with hc2 | hc2
              · exact absurd hc hc2
              · omega
            have := ih (pos + insn_size) (ic + 1) rest hic2 hrec
            simp only [List.length_cons]
            omega

theorem disassemble_loop_error_shape (dec : Decoder)
    (hpos : ∀ bs a t n, dec bs a = some (t, n) → 0 < n)
    (data : List Nat) (address count : Nat) :
    ∀ fuel pos ic e,
      data.length ≤ fuel + pos → pos < data.length →
      disassemble_loop dec data address count fuel pos ic = Except.error e →
      ∃ p, pos ≤ p ∧ p < data.length
        ∧ dec (data.drop p) ((address + p) % U64MOD) = none
        ∧ e = disas_error_msg p ((address + p) % U64MOD) := by
  intro fuel
  induction fuel with
  | zero =>
    intro pos ic e hfuel hlt _
    omega
  | succ fuel ih =>
    intro pos ic e hfuel hlt h
    rw [disassemble_loop_succ_eq] at h
    cases hd : dec (data.drop pos) ((address + pos) % U64MOD) with
    | none =>
      rw [hd] at h
      simp only [Except.error.injEq] at h
      exact ⟨pos, Nat.le_refl pos, hlt, hd, h.symm⟩
    | some r =>
      obtain ⟨text, insn_size⟩ := r
      rw [hd] at h
      dsimp only at h
      have hsz := hpos _ _ _ _ hd
      split at h
      · exact absurd h (by simp)
      · split at h
        · exact absurd h (by simp)
        · rename_i hlen
          cases hrec : disassemble_loop dec data address count fuel (pos + insn_size) (ic + 1) with
          | error e2 =>
            try rw [hrec] at h
            dsimp only at h
            simp only [Except.error.injEq] at h
            subst h
            obtain ⟨p, hp1, hp2, hp3, hp4⟩ :=
              ih (pos + insn_size) (ic + 1) e2 (by omega) (by omega) hrec
            exact ⟨p, by omega, hp2, hp3, hp4⟩
          | ok rest =>
            try rw [hrec] at h
            dsimp only at h
            exact absurd h (by simp)

theorem disassemble_loop_count_agree (dec : Decoder) (data : List Nat) (address : Nat)
    (n : Nat) :
    ∀ fuel pos ic0 ic insns,
      disassemble_loop dec data address 0 fuel pos ic0 = Except.ok insns →
      ic + insns.length ≤ n →
      disassemble_loop dec data address n fuel pos ic = Except.ok insns := by
  intro fuel
  induction fuel with
  | zero =>
    intro pos ic0 ic insns h _
    exact absurd h (by simp [disassemble_loop])
  | succ fuel ih =>
    intro pos ic0 ic insns h hcount
    rw [disassemble_loop_succ_eq] at h
    rw [disassemble_loop_succ_eq]
    cases hd : dec (data.drop pos) ((address + pos) % U64MOD) with
    | none =>
      try rw [hd] at h
      dsimp only at h
      exact absurd h (by simp)
    | some r =>
      obtain ⟨text, insn_size⟩ := r
      try rw [hd] at h
      try rw [hd]
      dsimp only at h ⊢
      rw [if_neg (by simp)] at h
      by_cases hlen : data.length ≤ pos + insn_size
      · rw [if_pos hlen] at h
        simp only [Except.ok.injEq] at h
        subst h
        split
        · rfl
        · rfl

      · rw [if_neg hlen] at h
        cases hrec : disassemble_loop dec data address 0 fuel (pos + insn_size) (ic0 + 1) with
        | error e =>
          try rw [hrec] at h
          dsimp only at h
          exact absurd h (by simp)
        | ok rest =>
          try rw [hrec] at h
          dsimp only at h
          simp only [Except.ok.injEq] at h
          subst h
          have hrest_ne := disassemble_loop_ok_ne_nil hrec
          have hrest_len : 1 ≤ rest.length := by
            cases rest with
            | nil => exact absurd rfl hrest_ne
            | cons a l => simp
          simp only [List.length_cons] at hcount
          rw [if_neg (by omega)]
          rw [if_neg hlen]
          rw [ih (pos + insn_size) (ic0 + 1) (ic + 1) rest hrec (by omega)]

theorem twoByteDecoder_spec :
    ∀ bs a t n, twoByteDecoder bs a = some (t, n) → 0 < n ∧ n ≤ bs.length := by
  intro bs a t n h
  unfold twoByteDecoder at h
  split at h
  · rename_i hc
    simp only [Option.some.injEq, Prod.mk.injEq] at h
    omega
  · exact absurd h (by simp)

/-- Claim C4: for every disassemble call, count = 0 decodes until the
input bytes are exhausted and count = n > 0 stops after n instructions
ignoring trailing bytes; decoding is strictly sequential, with
instruction k+1 starting exactly at the byte offset where instruction k
ended (no lookahead or skipping), so for count = 0 on a successfully
decoded input the sum of the decoded instruction byte lengths equals the
length of the input bytes exactly, with no gaps and no overlap
(nyxstone.cpp:421-474).  The Decoder hypothesis states the llvm decode
contract: a successful decode consumes at least one and at most all of
the remaining bytes. -/
theorem C4_sequential_decode_coverage (dec : Decoder)
    (hdec : ∀ bs a t n, dec bs a = some (t, n) → 0 < n ∧ n ≤ bs.length)
    (bytes : List Nat) (address : Nat) :
    (∀ insns, disassemble_to_instructions dec bytes address 0 = Except.ok insns →
      insn_byte_length insns = bytes.length
        ∧ (insns.map Instruction.bytes).flatten = bytes
        ∧ seq_from address insns = true)
    ∧ (∀ n insns, n ≠ 0 →
        disassemble_to_instructions dec bytes address n = Except.ok insns →
        insns.length ≤ n ∧ seq_from address insns = true) := by
  constructor
  · intro insns h
    unfold disassemble_to_instructions disassemble_impl at h
    by_cases hemp : bytes.isEmpty
    · rw [if_pos hemp] at h
      simp only [Except.ok.injEq] at h
      subst h
      have hb : bytes = [] := by simpa using hemp
      subst hb
      exact ⟨rfl, rfl, rfl⟩
    · rw [if_neg hemp] at h
      have hflat := disassemble_loop_flatten dec hdec bytes address _ 0 0 insns h
      have hseq := disassemble_loop_seq dec hdec bytes address 0 _ 0 0 insns h
      rw [List.drop_zero] at hflat
      refine ⟨?_, hflat, by simpa using hseq⟩
      rw [insn_byte_length_flatten, hflat]
  · intro n insns hn h
    unfold disassemble_to_instructions disassemble_impl at h
    by_cases hemp : bytes.isEmpty
    · rw [if_pos hemp] at h
      simp only [Except.ok.injEq] at h
      subst h
      exact ⟨by simp, rfl⟩
    · rw [if_neg hemp] at h
      have hlen := disassemble_loop_length_le dec bytes address n hn _ 0 0 insns
        (Nat.pos_of_ne_zero hn) h
      have hseq := disassemble_loop_seq dec hdec bytes address n _ 0 0 insns h
      exact ⟨by omega, by simpa using hseq⟩

/-- Witness for C4 at a concrete input. -/
theorem C4_sequential_decode_coverage_witness :
    (∀ bs a t n, twoByteDecoder bs a = some (t, n) → 0 < n ∧ n ≤ bs.length)
      ∧ (insn_byte_length
            [{ address := 0x100, assembly := "insn", bytes := [1, 2] },
             { address := 0x102, assembly := "insn", bytes := [3, 4] }]
          = [1, 2, 3, 4].length
        ∧ (([{ address := 0x100, assembly := "insn", bytes := [1, 2] },
             { address := 0x102, assembly := "insn", bytes := [3, 4] }].map
              Instruction.bytes)).flatten = [1, 2, 3, 4]
        ∧ seq_from 0x100
            [{ address := 0x100, assembly := "insn", bytes := [1, 2] },
             { address := 0x102, assembly := "insn", bytes := [3, 4] }] = true) :=
  ⟨twoByteDecoder_spec,
    (C4_sequential_decode_coverage twoByteDecoder twoByteDecoder_spec [1, 2, 3, 4] 0x100).1
      _ rfl⟩

/-- Claim C6: for every disassemble call in which decoding fails at some
byte offset, the whole call returns an error that identifies the failing
offset and address, and no partial results are returned to the caller:
any instructions already decoded before the failure are discarded, and
the text variant of the call fails with the same error
(nyxstone.cpp:166-173, 424-436). -/
theorem C6_decode_failure_is_all_or_nothing (dec : Decoder)
    (hpos : ∀ bs a t n, dec bs a = some (t, n) → 0 < n)
    (bytes : List Nat) (address count : Nat) :
    ∀ e, disassemble_to_instructions dec bytes address count = Except.error e →
      (∃ p, p < bytes.length
        ∧ dec (bytes.drop p) ((address + p) % U64MOD) = none
        ∧ e = disas_error_msg p ((address + p) % U64MOD))
      ∧ disassemble dec bytes address count = Except.error e := by
  intro e h
  constructor
  · unfold disassemble_to_instructions disassemble_impl at h
    by_cases hemp : bytes.isEmpty
    · rw [if_pos hemp] at h
      exact absurd h (by simp)
    · rw [if_neg hemp] at h
      have hlt : 0 < bytes.length := by
        cases bytes with
        | nil => simp at hemp
        | cons b l => simp
      obtain ⟨p, _, hp2, hp3, hp4⟩ :=
        disassemble_loop_error_shape dec hpos bytes address count _ 0 0 e (by omega) hlt h
      exact ⟨p, hp2, hp3, hp4⟩
  · unfold disassemble_to_instructions at h
    unfold disassemble
    rw [h]
    rfl

/-- Witness for C6 at a concrete input. -/
theorem C6_decode_failure_is_all_or_nothing_witness :
    (∀ bs a t n, failDecoder bs a = some (t, n) → 0 < n)
      ∧ ((∃ p, p < [1, 2, 3].length
          ∧ failDecoder ([1, 2, 3].drop p) ((0 + p) % U64MOD) = none
          ∧ disas_error_msg 0 0 = disas_error_msg p ((0 + p) % U64MOD))
        ∧ disassemble failDecoder [1, 2, 3] 0 0 = Except.error (disas_error_msg 0 0)) :=
  ⟨(fun _ _ _ _ h => nomatch h),
    C6_decode_failure_is_all_or_nothing failDecoder (fun _ _ _ _ h => nomatch h)
      [1, 2, 3] 0 0 (disas_error_msg 0 0) rfl⟩

/-- Claim C10: for every disassemble call with count = n > 0 where the
input bytes are exhausted after fewer than n instructions have been
decoded (each decode succeeding), the call returns the instructions
decoded so far as a success result; running out of bytes before reaching
the requested count is not an error (nyxstone.cpp:463-476). -/
theorem C10_count_exceeding_input_is_success (dec : Decoder) (bytes : List Nat)
    (address n : Nat) (insns : List Instruction) (_hn : n ≠ 0)
    (h0 : disassemble_to_instructions dec bytes address 0 = Except.ok insns)
    (hlt : insns.length < n) :
    disassemble_to_instructions dec bytes address n = Except.ok insns := by
  unfold disassemble_to_instructions disassemble_impl at h0 ⊢
  by_cases hemp : bytes.isEmpty
  · rw [if_pos hemp] at h0 ⊢
    exact h0
  · rw [if_neg hemp] at h0 ⊢
    exact disassemble_loop_count_agree dec bytes address n _ 0 0 0 insns h0 (by omega)

/-- Witness for C10 at a concrete input. -/
theorem C10_count_exceeding_input_is_success_witness :
    (5 : Nat) ≠ 0
      ∧ disassemble_to_instructions twoByteDecoder [1, 2, 3, 4] 0x100 0
          = Except.ok
            [{ address := 0x100, assembly := "insn", bytes := [1, 2] },
             { address := 0x102, assembly := "insn", bytes := [3, 4] }]
      ∧ ([{ address := 0x100, assembly := "insn", bytes := [1, 2] },
          { address := 0x102, assembly := "insn", bytes := [3, 4] }] : List Instruction).length < 5
      ∧ disassemble_to_instructions twoByteDecoder [1, 2, 3, 4] 0x100 5
          = Except.ok
            [{ address := 0x100, assembly := "insn", bytes := [1, 2] },
             { address := 0x102, assembly := "insn", bytes := [3, 4] }] :=
  ⟨by decide, rfl, by decide,
    C10_count_exceeding_input_is_success twoByteDecoder [1, 2, 3, 4] 0x100 5
      [{ address := 0x100, assembly := "insn", bytes := [1, 2] },
       { address := 0x102, assembly := "insn", bytes := [3, 4] }] (by decide)
      rfl (by decide)⟩

/-- Counterexample to claim C9 as stated: an argument-parsing failure
("Missing input" is the `Options::parse` error for a call without a
positional argument, nyxstone-cli.cpp:120-122) exits with code 1, not
with code 2 (nyxstone-cli.cpp:135-140). -/
theorem C9_counterexample_parse_failure_exits_one :
    cli_exit_code (Except.error "Missing input") (Except.ok ()) []
        (Except.ok []) (Except.ok []) = 1
      ∧ (1 : Nat) ≠ 2 :=
  ⟨rfl, by decide⟩

/-- Claim C9 (amended): the command-line surface exits with code 1 on
operation errors, argument errors and argument-parsing failures alike,
and never exits with a code other than 0 or 1 (in particular never 2);
help exits with 0 (nyxstone-cli.cpp:133-182).  In order: argument-parsing
failures exit 1; `--help` exits 0; Nyxstone-builder failures exit 1; a
disassemble input that does not decode as hex (empty byte result) exits
1; disassemble operation errors exit 1; assemble operation errors exit 1;
every exit code is 0 or 1. -/
theorem C9_exit_code_mapping :
    (∀ (e : String) (build_result : Except String Unit) (decoded_bytes : List Nat)
        (disas_result asm_result : Except String (List Instruction)),
      cli_exit_code (Except.error e) build_result decoded_bytes disas_result asm_result = 1)
    ∧ (∀ (triple cpu features : String) (address : Nat) (labels : List LabelDefinition)
        (dis : Bool) (input : String) (build_result : Except String Unit)
        (decoded_bytes : List Nat)
        (disas_result asm_result : Except String (List Instruction)),
      cli_exit_code
          (Except.ok
            { triple := triple, cpu := cpu, features := features, address := address,
              labels := labels, disassemble := dis, show_help := true, input := input })
          build_result decoded_bytes disas_result asm_result = 0)
    ∧ (∀ (triple cpu features : String) (address : Nat) (labels : List LabelDefinition)
        (dis : Bool) (input : String) (e : String) (decoded_bytes : List Nat)
        (disas_result asm_result : Except String (List Instruction)),
      cli_exit_code
          (Except.ok
            { triple := triple, cpu := cpu, features := features, address := address,
              labels := labels, disassemble := dis, show_help := false, input := input })
          (Except.error e) decoded_bytes disas_result asm_result = 1)
    ∧ (∀ (triple cpu features : String) (address : Nat) (labels : List LabelDefinition)
        (input : String)
        (disas_result asm_result : Except String (List Instruction)),
      cli_exit_code
          (Except.ok
            { triple := triple, cpu := cpu, features := features, address := address,
              labels := labels, disassemble := true, show_help := false, input := input })
          (Except.ok ()) [] disas_result asm_result = 1)
    ∧ (∀ (triple cpu features : String) (address : Nat) (labels : List LabelDefinition)
        (input : String) (b : Nat) (bs : List Nat) (e : String)
        (asm_result : Except String (List Instruction)),
      cli_exit_code
          (Except.ok
            { triple := triple, cpu := cpu, features := features, address := address,
              labels := labels, disassemble := true, show_help := false, input := input })
          (Except.ok ()) (b :: bs) (Except.error e) asm_result = 1)
    ∧ (∀ (triple cpu features : String) (address : Nat) (labels : List LabelDefinition)
        (input : String) (decoded_bytes : List Nat) (e : String)
        (disas_result : Except String (List Instruction)),
      cli_exit_code
          (Except.ok
            { triple := triple, cpu := cpu, features := features, address := address,
              labels := labels, disassemble := false, show_help := false, input := input })
          (Except.ok ()) decoded_bytes disas_result (Except.error e) = 1)
    ∧ (∀ (options_result : Except String Options) (build_result : Except String Unit)
        (decoded_bytes : List Nat) (disas_result asm_result : Except String (List Instruction)),
      cli_exit_code options_result build_result decoded_bytes disas_result asm_result = 0
        ∨ cli_exit_code options_result build_result decoded_bytes disas_result asm_result = 1) := by
  refine ⟨?_, ?_, ?_, ?_, ?_, ?_, ?_⟩
  · intro e build_result decoded_bytes disas_result asm_result
    rfl
  · intro triple cpu features address labels dis input build_result decoded_bytes
      disas_result asm_result
    rfl
  · intro triple cpu features address labels dis input e decoded_bytes disas_result asm_result
    rfl
  · intro triple cpu features address labels input disas_result asm_result
    rfl
  · intro triple cpu features address labels input b bs e asm_result
    rfl
  · intro triple cpu features address labels input decoded_bytes e disas_result
    rfl
  · intro options_result build_result decoded_bytes disas_result asm_result
    cases options_result with
    | error e => exact Or.inr rfl
    | ok options =>
      simp only [cli_exit_code]
      by_cases hh : options.show_help
      · simp [hh]
      · simp only [hh, Bool.false_eq_true, if_false]
        cases build_result with
        | error e => exact Or.inr rfl
        | ok u =>
          by_cases hd : options.disassemble
          · simp only [hd, if_true]
            by_cases he : decoded_bytes.isEmpty
            · simp [he]
            · simp only [he, Bool.false_eq_true, if_false]
              cases disas_result with
              | error e => exact Or.inr rfl
              | ok l => exact Or.inl rfl
          · simp only [hd, Bool.false_eq_true, if_false]
            cases asm_result with
            | error e => exact Or.inr rfl
            | ok l => exact Or.inl rfl

/-- Claim C8: for every assemble call (either variant) with empty assembly
text, at any address and with any label set, the call returns an empty
success result (empty byte sequence / empty instruction list), never an
error (nyxstone.cpp:227-229). -/
theorem C8_empty_assembly_yields_empty_success (triple : Triple) (backend : AsmBackend)
    (address : Nat) (labels : List LabelDefinition) :
    assemble triple backend "" address labels = Except.ok []
      ∧ assemble_to_instructions triple backend "" address labels = Except.ok [] := by
  constructor
  · rfl
  · rfl

end nyxstone
